import Mathlib

/-!
Verification development for the SROM gradient module (`optimize/Gradient.py`).

The module computes the gradient, with respect to a discrete probability
vector, of an objective measuring the discrepancy between a Stochastic
Reduced Order Model (SROM) and a target random vector.  We embed the code
shallowly over `ℚ`: numeric arrays become lists of rationals, matrices become
lists of rows, and the SROM / target collaborators become records of oracle
functions.  Division by zero maps to the Lean convention `x / 0 = 0` (the float
`inf`/`nan` edge of the code is outside the scope of the claims).
-/

set_option autoImplicit false

/-! ### The embedded program and concrete instances -/

/-- A numeric matrix: a list of rows. -/
abbrev Mat := List (List ℚ)

/-- Relative-error sensitivity `(s - t) / t²` used by every diff matrix. -/
def relDiff (s t : ℚ) : ℚ := (s - t) / t ^ 2

/-- Elementwise combination of two matrices (numpy elementwise arithmetic). -/
def matZip (f : ℚ → ℚ → ℚ) (A B : Mat) : Mat :=
  List.zipWith (List.zipWith f) A B

/-- Column `i` of a row-major matrix (`M[:, i]`). -/
def column (M : Mat) (i : ℕ) : List ℚ :=
  M.map (fun r => r.getD i 0)

/-- `np.linspace a b n`: `n` evenly spaced values from `a` to `b` inclusive
(`[a]` when `n = 1`, `[]` when `n = 0`). -/
def linspace (a b : ℚ) (n : ℕ) : List ℚ :=
  if n ≤ 1 then List.replicate n a
  else (List.range n).map (fun j : ℕ => a + (b - a) * (j : ℚ) / ((n : ℚ) - 1))

/-- `np.reshape (rows, cols)` of a flat vector, row-major. -/
def reshape (rows cols : ℕ) (l : List ℚ) : Mat :=
  (List.range rows).map (fun k => (l.drop (k * cols)).take cols)

/-- `np.tile v rows`: `rows` copies of `v` concatenated. -/
def tile (v : List ℚ) (rows : ℕ) : List ℚ :=
  (List.replicate rows v).flatten

/-- The SROM collaborator: its size attribute, its mutable parameter state
`(samples, probs)`, and its statistic oracles, each a function of the current
parameter state. -/
structure SROMModel where
  size : ℕ
  params : Mat × List ℚ
  cdfFun : Mat × List ℚ → Mat → Mat
  momentFun : Mat × List ℚ → ℕ → Mat
  corrFun : Mat × List ℚ → Mat

/-- `SROM.set_params`: replace the internal parameter state. -/
def SROMModel.set_params (m : SROMModel) (samples : Mat) (probs : List ℚ) :
    SROMModel :=
  { m with params := (samples, probs) }

/-- `SROM.compute_CDF(grid)`. -/
def SROMModel.compute_CDF (m : SROMModel) (grid : Mat) : Mat :=
  m.cdfFun m.params grid

/-- `SROM.compute_moments(max_moment)`. -/
def SROMModel.compute_moments (m : SROMModel) (maxMoment : ℕ) : Mat :=
  m.momentFun m.params maxMoment

/-- `SROM.compute_corr_mat()`. -/
def SROMModel.compute_corr_mat (m : SROMModel) : Mat :=
  m.corrFun m.params

/-- The target random-vector collaborator: dimension, per-dimension bounds,
and statistic oracles (fixed, no mutable state). -/
structure TargetRV where
  dim : ℕ
  mins : List ℚ
  maxs : List ℚ
  cdfFun : Mat → Mat
  momentFun : ℕ → Mat
  corrMat : Mat

/-- `target.compute_CDF(grid)`. -/
def TargetRV.compute_CDF (t : TargetRV) (grid : Mat) : Mat :=
  t.cdfFun grid

/-- `target.compute_moments(max_moment)`. -/
def TargetRV.compute_moments (t : TargetRV) (maxMoment : ℕ) : Mat :=
  t.momentFun maxMoment

/-- `target.compute_corr_mat()`. -/
def TargetRV.compute_corr_mat (t : TargetRV) : Mat :=
  t.corrMat

/-- `Gradient.generate_cdf_grids`: the `cdf_grid_pts × dim` evaluation grid
whose column `i` is `np.linspace(mins[i], maxs[i], cdf_grid_pts)`. -/
def generate_cdf_grids (target : TargetRV) (cdfGridPts : ℕ) : Mat :=
  (List.range cdfGridPts).map (fun j =>
    (List.range target.dim).map (fun i =>
      (linspace (target.mins.getD i 0) (target.maxs.getD i 0) cdfGridPts).getD j 0))

/-- The Python method `str.upper()` (ASCII case mapping, as used by the metric check). -/
def strUpper (s : String) : String := String.mk (s.data.map Char.toUpper)

/-- The state of the `Gradient` object after a successful `__init__`. -/
structure Gradient where
  srom : SROMModel
  target : TargetRV
  weights : List ℚ
  metric : String
  maxMoment : ℕ
  xGrid : Mat

/-- `Gradient.__init__`: stores the collaborators, builds the CDF grid,
validates `obj_weights` (length 3, default all-ones) and the error metric
(case-insensitively one of mean/max/sse), raising `ValueError` otherwise. -/
def Gradient.init (srom : SROMModel) (target : TargetRV)
    (objWeights : Option (List ℚ)) (error : String)
    (maxMoment : ℕ) (cdfGridPts : ℕ) : Except String Gradient :=
  let xGrid := generate_cdf_grids target cdfGridPts
  match objWeights with
  | some w =>
    if w.length ≠ 3 then .error "obj_weights must have length 3!"
    else if strUpper error ∈ ["MEAN", "MAX", "SSE"] then
      .ok ⟨srom, target, w, strUpper error, maxMoment, xGrid⟩
    else .error "error must be either mean, max, or sse"
  | none =>
    if strUpper error ∈ ["MEAN", "MAX", "SSE"] then
      .ok ⟨srom, target, [1, 1, 1], strUpper error, maxMoment, xGrid⟩
    else .error "error must be either mean, max, or sse"

/-- Inner accumulation of `CDF_wrt_prob`: `np.sum(diffs[indz, i])` where
`indz = grid_i >= samples_k[i]` — the masked column sum. -/
def maskedColumnSum (gridCol diffCol : List ℚ) (x : ℚ) : ℚ :=
  ((((gridCol.zip diffCol).filter (fun p => decide (x ≤ p.1))).map
    (fun p => p.2)).sum)

/-- `Gradient.CDF_wrt_prob`: for each sample `k`, sum over dimensions `i` of
the sum of `diffs[g, i]` over grid points `g` with `grid[g, i] ≥ samples[k, i]`,
where `diffs = (srom_cdfs - target_cdfs) / target_cdfs²` on the grid. -/
def Gradient.CDF_wrt_prob (g : Gradient) (samples : Mat) (probs : List ℚ) :
    List ℚ :=
  let dim := (samples.headD []).length
  let sromCdfs := g.srom.compute_CDF g.xGrid
  let targetCdfs := g.target.compute_CDF g.xGrid
  let diffs := matZip relDiff sromCdfs targetCdfs
  samples.map (fun samples_k =>
    ((List.range dim).map (fun i =>
      maskedColumnSum (column g.xGrid i) (column diffs i)
        (samples_k.getD i 0))).sum)

/-- `Gradient.moment_wrt_prob`, in the vectorized source form of
flatten/tile/multiply/reshape/row-sum form, accumulated over moment orders
`q+1` for `q < max_moment`, with
`diffs = (srom_moments - target_moments) / target_moments²`. -/
def Gradient.moment_wrt_prob (g : Gradient) (samples : Mat) (probs : List ℚ) :
    List ℚ :=
  let size := samples.length
  let dim := (samples.headD []).length
  let sromMoments := g.srom.compute_moments g.maxMoment
  let targetMoments := g.target.compute_moments g.maxMoment
  let diffs := matZip relDiff sromMoments targetMoments
  let samples_flat := samples.flatten
  (List.range g.maxMoment).foldl (fun grad q =>
    let samples_q := samples_flat.map (fun x => x ^ (q + 1))
    let diffs_tiled := tile (diffs.getD q []) size
    let diffs_samples_q := List.zipWith (· * ·) samples_q diffs_tiled
    List.zipWith (· + ·) grad
      ((reshape size dim diffs_samples_q).map List.sum))
    (List.replicate size 0)

/-- `Gradient.corr_wrt_prob`: zero vector when `dim = 1`; otherwise for each
sample `k` the bilinear form `Σ_i Σ_j diffs[i, j] * samples[k, i] * samples[k, j]`
with `diffs = (srom_corr - target_corr) / target_corr²`. -/
def Gradient.corr_wrt_prob (g : Gradient) (samples : Mat) (probs : List ℚ) :
    List ℚ :=
  let size := samples.length
  let dim := (samples.headD []).length
  if dim = 1 then List.replicate size 0
  else
    let sromCorr := g.srom.compute_corr_mat
    let targetCorr := g.target.compute_corr_mat
    let diffs := matZip relDiff sromCorr targetCorr
    samples.map (fun sample_k =>
      ((List.range dim).map (fun i =>
        ((List.range dim).map (fun j =>
          (diffs.getD i []).getD j 0 * sample_k.getD i 0 * sample_k.getD j 0)).sum)).sum)

/-- `Gradient.gradient_wrt_probs`: each term is computed when its weight is
positive and replaced by `np.zeros(srom.size)` otherwise; the result is the
elementwise weighted sum of the three term vectors. -/
def Gradient.gradient_wrt_probs (g : Gradient) (samples : Mat) (probs : List ℚ) :
    List ℚ :=
  let sromsize := g.srom.size
  let w0 := g.weights.getD 0 0
  let w1 := g.weights.getD 1 0
  let w2 := g.weights.getD 2 0
  let cdf_grad :=
    if 0 < w0 then g.CDF_wrt_prob samples probs else List.replicate sromsize 0
  let moment_grad :=
    if 0 < w1 then g.moment_wrt_prob samples probs else List.replicate sromsize 0
  let corr_grad :=
    if 0 < w2 then g.corr_wrt_prob samples probs else List.replicate sromsize 0
  List.zipWith (· + ·)
    (List.zipWith (· + ·) (cdf_grad.map (fun x => w0 * x))
      (moment_grad.map (fun x => w1 * x)))
    (corr_grad.map (fun x => w2 * x))

/-- `Gradient.evaluate`: push `(samples, probs)` into the SROM model, then
return `gradient_wrt_probs(samples, probs)` computed against the updated
state.  The updated evaluator is returned alongside the gradient to make the
single mutation explicit. -/
def Gradient.evaluate (g : Gradient) (samples : Mat) (probs : List ℚ) :
    Gradient × List ℚ :=
  let g2 := { g with srom := g.srom.set_params samples probs }
  (g2, g2.gradient_wrt_probs samples probs)

/-- `M` is a `rows × cols` matrix. -/
def IsMat (M : Mat) (rows cols : ℕ) : Prop :=
  M.length = rows ∧ ∀ r ∈ M, r.length = cols

instance (M : Mat) (rows cols : ℕ) : Decidable (IsMat M rows cols) := by
  unfold IsMat; infer_instance

/-- C5 counterexample input: a one-dimensional target with bounds `[0, 1]`. -/
def targetC5 : TargetRV where
  dim := 1
  mins := [0]
  maxs := [1]
  cdfFun := fun grid => grid
  momentFun := fun _ => []
  corrMat := []

/-- The combination formula of the spec,
`w_cdf*CDF_term + w_moment*moment_term + w_corr*corr_term` over the three
independently computed term vectors. -/
def weightedTermSum (g : Gradient) (samples : Mat) (probs : List ℚ) : List ℚ :=
  List.zipWith (· + ·)
    (List.zipWith (· + ·)
      ((g.CDF_wrt_prob samples probs).map (fun x => g.weights.getD 0 0 * x))
      ((g.moment_wrt_prob samples probs).map (fun x => g.weights.getD 1 0 * x)))
    ((g.corr_wrt_prob samples probs).map (fun x => g.weights.getD 2 0 * x))

/-- C1 counterexample collaborators: a one-point, one-dimensional SROM whose
CDF differs from the CDF of the target on the single grid point. -/
def sromC1 : SROMModel where
  size := 1
  params := ([[0]], [1])
  cdfFun := fun _ _ => [[2]]
  momentFun := fun _ _ => [[1]]
  corrFun := fun _ => [[1]]

/-- C1 counterexample target: uniform-like bounds `[0, 1]`, matching moments. -/
def targetC1 : TargetRV where
  dim := 1
  mins := [0]
  maxs := [1]
  cdfFun := fun _ => [[1]]
  momentFun := fun _ => [[1]]
  corrMat := [[1]]

/-- C1 counterexample evaluator: weight vector `[-1, 0, 0]` (length 3, so
accepted by construction). -/
def gC1 : Gradient :=
  ⟨sromC1, targetC1, [-1, 0, 0], "MEAN", 1, generate_cdf_grids targetC1 1⟩

/-- Worked-scenario target: 1-D uniform on `[0, 1]` (CDF is the identity on
grid values, moments `1/2`, `1/3`). -/
def targetEx : TargetRV where
  dim := 1
  mins := [0]
  maxs := [1]
  cdfFun := fun grid => grid
  momentFun := fun _ => [[1/2], [1/3]]
  corrMat := [[1]]

/-- Worked-scenario SROM: two samples `1/4`, `3/4` with probabilities
`1/2`, `1/2`; statistics precomputed on the 5-point grid. -/
def sromEx : SROMModel where
  size := 2
  params := ([[1/4], [3/4]], [1/2, 1/2])
  cdfFun := fun _ _ => [[0], [1/2], [1/2], [1], [1]]
  momentFun := fun _ _ => [[1/2], [5/16]]
  corrFun := fun _ => [[1]]

/-- Worked-scenario evaluator: all-ones weights, `max_moment = 2`,
`cdf_grid_pts = 5`. -/
def gradEx : Gradient :=
  ⟨sromEx, targetEx, [1, 1, 1], "MEAN", 2, generate_cdf_grids targetEx 5⟩

/-- A three-dimensional target for exercising the correlation branch. -/
def targetC4 : TargetRV where
  dim := 3
  mins := [0, 0, 0]
  maxs := [1, 1, 1]
  cdfFun := fun grid => grid
  momentFun := fun _ => [[1, 1, 1], [1, 1, 1]]
  corrMat := [[1, 1, 1], [1, 1, 1], [1, 1, 1]]

/-- A three-dimensional SROM for exercising the correlation branch. -/
def sromC4 : SROMModel where
  size := 2
  params := ([], [])
  cdfFun := fun _ grid => grid
  momentFun := fun _ _ => [[11, 21, 31], [41, 51, 61]]
  corrFun := fun _ => [[2, 3, 4], [5, 6, 7], [8, 9, 10]]

/-- Evaluator over the three-dimensional collaborators. -/
def gradC4 : Gradient :=
  ⟨sromC4, targetC4, [1, 1, 1], "MEAN", 2, generate_cdf_grids targetC4 3⟩

/-- The C1 collaborators with an all-ones (non-negative) weight vector. -/
def gW : Gradient :=
  ⟨sromC1, targetC1, [1, 1, 1], "MEAN", 1, generate_cdf_grids targetC1 1⟩

/-- Weight vector `[1, 1, 0]` (correlation weight zero) on the worked
scenario. -/
def gradC7 : Gradient :=
  ⟨sromEx, targetEx, [1, 1, 0], "MEAN", 2, generate_cdf_grids targetEx 5⟩

/-- Same as `gradC7` except both correlation oracles are perturbed. -/
def gradC7b : Gradient :=
  ⟨{ sromEx with corrFun := fun _ => [[99]] },
    { targetEx with corrMat := [[7]] },
    [1, 1, 0], "MEAN", 2, generate_cdf_grids targetEx 5⟩

/-- Evaluator as built by `__init__` with metric `"mean"`. -/
def gA : Gradient :=
  ⟨sromEx, targetEx, [1, 1, 1], "MEAN", 2, generate_cdf_grids targetEx 5⟩

/-- Evaluator as built by `__init__` with metric `"max"`. -/
def gB : Gradient :=
  ⟨sromEx, targetEx, [1, 1, 1], "MAX", 2, generate_cdf_grids targetEx 5⟩

/-! ### Helper lemmas and claim theorems -/

theorem IsMat.row_len {M : Mat} {rows cols : ℕ} (h : IsMat M rows cols)
    {k : ℕ} (hk : k < rows) : (M.getD k []).length = cols := by
  rcases h with ⟨hlen, hrows⟩
  have hk2 : k < M.length := by omega
  rw [List.getD_eq_getElem?_getD, List.getElem?_eq_getElem hk2]
  exact hrows _ (M.getElem_mem hk2)

theorem getD_zipWith {f : ℚ → ℚ → ℚ} {l1 l2 : List ℚ} {n : ℕ}
    (h1 : n < l1.length) (h2 : n < l2.length) :
    (List.zipWith f l1 l2).getD n 0 = f (l1.getD n 0) (l2.getD n 0) := by
  rw [List.getD_eq_getElem?_getD, List.getD_eq_getElem?_getD,
    List.getD_eq_getElem?_getD, List.getElem?_zipWith,
    List.getElem?_eq_getElem h1, List.getElem?_eq_getElem h2]
  rfl

theorem list_sum_eq_sum_getD (l : List ℚ) :
    l.sum = ∑ i in Finset.range l.length, l.getD i 0 := by
  induction l with
  | nil => simp
  | cons a t ih =>
    rw [List.sum_cons, List.length_cons, Finset.sum_range_succ', ih]
    simp [List.getD_cons_succ, List.getD_cons_zero, add_comm]

theorem column_length (M : Mat) (i : ℕ) : (column M i).length = M.length := by
  simp [column]

theorem column_getD {M : Mat} {i g : ℕ} (hg : g < M.length) :
    (column M i).getD g 0 = (M.getD g []).getD i 0 := by
  have hrow : M.getD g [] = M[g] := by
    rw [List.getD_eq_getElem?_getD, List.getElem?_eq_getElem hg]; rfl
  unfold column
  rw [List.getD_eq_getElem?_getD, List.getElem?_map,
    List.getElem?_eq_getElem hg, hrow]
  rfl

theorem maskedColumnSum_eq (gridCol diffCol : List ℚ) (x : ℚ)
    (hlen : gridCol.length = diffCol.length) :
    maskedColumnSum gridCol diffCol x =
      ∑ g in Finset.range gridCol.length,
        if x ≤ gridCol.getD g 0 then diffCol.getD g 0 else 0 := by
  induction gridCol generalizing diffCol with
  | nil => simp [maskedColumnSum]
  | cons a gs ih =>
    cases diffCol with
    | nil => simp at hlen
    | cons b ds =>
      have hlen2 : gs.length = ds.length := by simpa using hlen
      rw [List.length_cons, Finset.sum_range_succ']
      simp only [List.getD_cons_succ, List.getD_cons_zero]
      rw [← ih ds hlen2]
      unfold maskedColumnSum
      rw [List.zip_cons_cons, List.filter_cons]
      by_cases hx : x ≤ a
      · simp [hx, add_comm]
      · simp [hx]

theorem getD_matZip {f : ℚ → ℚ → ℚ} {A B : Mat} {rows cols : ℕ}
    (hA : IsMat A rows cols) (hB : IsMat B rows cols)
    {g i : ℕ} (hg : g < rows) (hi : i < cols) :
    ((matZip f A B).getD g []).getD i 0 =
      f ((A.getD g []).getD i 0) ((B.getD g []).getD i 0) := by
  have hgA : g < A.length := by rw [hA.1]; exact hg
  have hgB : g < B.length := by rw [hB.1]; exact hg
  have hrow : (matZip f A B).getD g [] =
      List.zipWith f (A.getD g []) (B.getD g []) := by
    unfold matZip
    rw [List.getD_eq_getElem?_getD, List.getElem?_zipWith,
      List.getElem?_eq_getElem hgA, List.getElem?_eq_getElem hgB,
      List.getD_eq_getElem?_getD, List.getElem?_eq_getElem hgA,
      List.getD_eq_getElem?_getD, List.getElem?_eq_getElem hgB]
    rfl
  rw [hrow]
  exact getD_zipWith (by rw [hA.row_len hg]; exact hi)
    (by rw [hB.row_len hg]; exact hi)

theorem matZip_isMat {f : ℚ → ℚ → ℚ} {A B : Mat} {rows cols : ℕ}
    (hA : IsMat A rows cols) (hB : IsMat B rows cols) :
    IsMat (matZip f A B) rows cols := by
  constructor
  · unfold matZip; rw [List.length_zipWith, hA.1, hB.1, min_self]
  · intro r hr
    unfold matZip at hr
    obtain ⟨n, hn, rfl⟩ := List.mem_iff_getElem.mp hr
    rw [List.getElem_zipWith, List.length_zipWith,
      hA.2 _ (List.getElem_mem _), hB.2 _ (List.getElem_mem _), min_self]

theorem getD_map_range {β : Type _} (f : ℕ → β) {n k : ℕ} (hk : k < n) (d : β) :
    ((List.range n).map f).getD k d = f k := by
  rw [List.getD_eq_getElem?_getD, List.getElem?_map, List.getElem?_range hk]
  rfl

theorem flatten_length_uniform {M : Mat} {c : ℕ}
    (h : ∀ r ∈ M, r.length = c) :
    M.flatten.length = M.length * c := by
  induction M with
  | nil => simp
  | cons r t ih =>
    rw [List.flatten_cons, List.length_append, List.length_cons,
      h r (by simp), ih (fun s hs => h s (by simp [hs]))]
    ring

theorem flatten_getD_uniform {M : Mat} {c : ℕ}
    (h : ∀ r ∈ M, r.length = c) {k i : ℕ}
    (hk : k < M.length) (hi : i < c) :
    M.flatten.getD (k * c + i) 0 = (M.getD k []).getD i 0 := by
  induction M generalizing k with
  | nil => simp at hk
  | cons r t ih =>
    have hr : r.length = c := h r (by simp)
    rw [List.flatten_cons]
    cases k with
    | zero =>
      have hi2 : i < r.length := by omega
      rw [List.getD_cons_zero, List.getD_eq_getElem?_getD]
      simp only [Nat.zero_mul, Nat.zero_add]
      rw [List.getElem?_append, if_pos hi2, ← List.getD_eq_getElem?_getD]
    | succ k2 =>
      have harith : (k2 + 1) * c + i = r.length + (k2 * c + i) := by
        rw [hr]; ring
      rw [List.getD_cons_succ, harith, List.getD_eq_getElem?_getD,
        List.getElem?_append_right (by omega)]
      simp only [Nat.add_sub_cancel_left]
      rw [← List.getD_eq_getElem?_getD]
      exact ih (fun s hs => h s (by simp [hs])) (by simpa using hk)

theorem tile_getD {v : List ℚ} {r k i : ℕ}
    (hk : k < r) (hi : i < v.length) :
    (tile v r).getD (k * v.length + i) 0 = v.getD i 0 := by
  have hrep : (List.replicate r v).getD k [] = v := by
    rw [List.getD_eq_getElem?_getD, List.getElem?_replicate_of_lt hk]
    rfl
  unfold tile
  rw [flatten_getD_uniform (c := v.length)
      (fun r hr => by rw [List.eq_of_mem_replicate hr])
      (by simpa using hk) hi, hrep]

theorem tile_length (v : List ℚ) (rows : ℕ) :
    (tile v rows).length = rows * v.length := by
  unfold tile
  rw [flatten_length_uniform (c := v.length)
    (fun r hr => by rw [List.eq_of_mem_replicate hr]), List.length_replicate]

theorem reshape_length (rows cols : ℕ) (l : List ℚ) :
    (reshape rows cols l).length = rows := by
  simp [reshape]

theorem reshape_getD {rows cols : ℕ} {l : List ℚ} {k : ℕ} (hk : k < rows) :
    (reshape rows cols l).getD k [] = (l.drop (k * cols)).take cols := by
  unfold reshape
  exact getD_map_range _ hk _

theorem sum_take_drop (l : List ℚ) (m c : ℕ) (h : m + c ≤ l.length) :
    ((l.drop m).take c).sum = ∑ i in Finset.range c, l.getD (m + i) 0 := by
  have hlen : ((l.drop m).take c).length = c := by
    rw [List.length_take, List.length_drop]; omega
  rw [list_sum_eq_sum_getD, hlen]
  refine Finset.sum_congr rfl (fun i hi => ?_)
  have hic : i < c := Finset.mem_range.mp hi
  rw [List.getD_eq_getElem?_getD, List.getElem?_take_of_lt hic,
    List.getElem?_drop, ← List.getD_eq_getElem?_getD]

theorem foldl_zipWith_add (qs : List ℕ) (v : ℕ → List ℚ) (g0 : List ℚ)
    (size : ℕ) (hg0 : g0.length = size) (hv : ∀ q ∈ qs, (v q).length = size) :
    (qs.foldl (fun grad q => List.zipWith (· + ·) grad (v q)) g0).length = size
    ∧ ∀ k, k < size →
      (qs.foldl (fun grad q => List.zipWith (· + ·) grad (v q)) g0).getD k 0
        = g0.getD k 0 + (qs.map (fun q => (v q).getD k 0)).sum := by
  induction qs generalizing g0 with
  | nil => exact ⟨hg0, fun k _ => by simp⟩
  | cons q qs ih =>
    have hq : (v q).length = size := hv q (by simp)
    have hg1 : (List.zipWith (· + ·) g0 (v q)).length = size := by
      rw [List.length_zipWith, hg0, hq, min_self]
    obtain ⟨ihlen, ihgetD⟩ :=
      ih (List.zipWith (· + ·) g0 (v q)) hg1 (fun p hp => hv p (by simp [hp]))
    refine ⟨by simpa using ihlen, fun k hk => ?_⟩
    rw [List.foldl_cons, ihgetD k hk,
      getD_zipWith (by omega) (by omega), List.map_cons, List.sum_cons]
    ring

theorem getD_map {α β : Type _} (f : α → β) {l : List α} {n : ℕ}
    (hn : n < l.length) (d : α) (d2 : β) :
    (l.map f).getD n d2 = f (l.getD n d) := by
  rw [List.getD_eq_getElem?_getD, List.getElem?_map, List.getElem?_eq_getElem hn,
    List.getD_eq_getElem?_getD, List.getElem?_eq_getElem hn]
  rfl

theorem IsMat.headD_len {M : Mat} {rows cols : ℕ} (h : IsMat M rows cols)
    (hpos : 0 < rows) : (M.headD []).length = cols := by
  cases M with
  | nil => rw [← h.1] at hpos; simp at hpos
  | cons r t => exact h.2 r (by simp)

theorem gradient_wrt_probs_ignores_metric (srom : SROMModel) (target : TargetRV)
    (weights : List ℚ) (m1 m2 : String) (mm : ℕ) (xg : Mat)
    (samples : Mat) (probs : List ℚ) :
    Gradient.gradient_wrt_probs ⟨srom, target, weights, m1, mm, xg⟩ samples probs
      = Gradient.gradient_wrt_probs ⟨srom, target, weights, m2, mm, xg⟩ samples probs :=
  rfl

/-- C10: neither `gradient_wrt_probs` nor any of the three term functions
reads the `probs` argument: on a fixed evaluator state and sample matrix,
any two probability vectors produce identical results.  Probabilities reach
the result only through state previously pushed into the SROM model. -/
theorem gradient_wrt_probs_ignores_probs (g : Gradient) (samples : Mat)
    (p1 p2 : List ℚ) :
    g.gradient_wrt_probs samples p1 = g.gradient_wrt_probs samples p2
    ∧ g.CDF_wrt_prob samples p1 = g.CDF_wrt_prob samples p2
    ∧ g.moment_wrt_prob samples p1 = g.moment_wrt_prob samples p2
    ∧ g.corr_wrt_prob samples p1 = g.corr_wrt_prob samples p2 :=
  ⟨rfl, rfl, rfl, rfl⟩

/-- C9: the stored error metric has no influence on the computed gradient:
two evaluators constructed identically except for the error-metric string
give the same `gradient_wrt_probs` on every input. -/
theorem metric_has_no_influence (srom : SROMModel) (target : TargetRV)
    (ow : Option (List ℚ)) (e1 e2 : String) (mm gp : ℕ) (g1 g2 : Gradient)
    (h1 : Gradient.init srom target ow e1 mm gp = .ok g1)
    (h2 : Gradient.init srom target ow e2 mm gp = .ok g2)
    (samples : Mat) (probs : List ℚ) :
    g1.gradient_wrt_probs samples probs = g2.gradient_wrt_probs samples probs := by
  cases ow with
  | some w =>
    simp only [Gradient.init] at h1 h2
    split at h1
    · exact absurd h1 (by simp)
    · split at h1
      · split at h2
        · exact absurd h2 (by simp)
        · split at h2
          · cases h1; cases h2
            exact gradient_wrt_probs_ignores_metric srom target w _ _ mm _
              samples probs
          · exact absurd h2 (by simp)
      · exact absurd h1 (by simp)
  | none =>
    simp only [Gradient.init] at h1 h2
    split at h1
    · split at h2
      · cases h1; cases h2
        exact gradient_wrt_probs_ignores_metric srom target _ _ _ mm _
          samples probs
      · exact absurd h2 (by simp)
    · exact absurd h1 (by simp)

/-- C8: `evaluate` pushes `(samples, probs)` into the SROM model via
`set_params` and returns exactly `gradient_wrt_probs(samples, probs)` of the
synchronized state; the SROM parameter push is the only mutation — the
grid, weights, metric of the evaluator, max moment, target, and the size
and oracle functions of the SROM are unchanged. -/
theorem evaluate_eq_and_frame (g : Gradient) (samples : Mat) (probs : List ℚ) :
    (g.evaluate samples probs).2
      = Gradient.gradient_wrt_probs (g.evaluate samples probs).1 samples probs
    ∧ (g.evaluate samples probs).1
        = { g with srom := g.srom.set_params samples probs }
    ∧ ((g.evaluate samples probs).1).xGrid = g.xGrid
    ∧ ((g.evaluate samples probs).1).weights = g.weights
    ∧ ((g.evaluate samples probs).1).metric = g.metric
    ∧ ((g.evaluate samples probs).1).maxMoment = g.maxMoment
    ∧ ((g.evaluate samples probs).1).target = g.target
    ∧ ((g.evaluate samples probs).1).srom.size = g.srom.size
    ∧ ((g.evaluate samples probs).1).srom.cdfFun = g.srom.cdfFun
    ∧ ((g.evaluate samples probs).1).srom.momentFun = g.srom.momentFun
    ∧ ((g.evaluate samples probs).1).srom.corrFun = g.srom.corrFun
    ∧ ((g.evaluate samples probs).1).srom.params = (samples, probs) :=
  ⟨rfl, rfl, rfl, rfl, rfl, rfl, rfl, rfl, rfl, rfl, rfl, rfl⟩

/-- C4: for a `size × dim` sample matrix, `corr_wrt_prob` returns the all-zero
length-`size` vector when `dim = 1` — for every evaluator state, so no
correlation matrix is consulted — and otherwise entry `k` is the bilinear
form `Σ_i Σ_j diff[i,j] * sample_k[i] * sample_k[j]` over the `dim × dim`
relative correlation diff. -/
theorem corr_wrt_prob_spec (g : Gradient) (samples : Mat) (probs : List ℚ)
    (size dim : ℕ) (hs : IsMat samples size dim) (hpos : 0 < size)
    (hS : IsMat g.srom.compute_corr_mat dim dim)
    (hT : IsMat g.target.compute_corr_mat dim dim) :
    (dim = 1 →
      ∀ g2 : Gradient, g2.corr_wrt_prob samples probs = List.replicate size 0)
    ∧ (dim ≠ 1 →
      (g.corr_wrt_prob samples probs).length = size
      ∧ ∀ k, k < size → (g.corr_wrt_prob samples probs).getD k 0 =
          ∑ i in Finset.range dim, ∑ j in Finset.range dim,
            relDiff ((g.srom.compute_corr_mat.getD i []).getD j 0)
                ((g.target.compute_corr_mat.getD i []).getD j 0)
              * (samples.getD k []).getD i 0 * (samples.getD k []).getD j 0) := by
  have hdim : (samples.headD []).length = dim := hs.headD_len hpos
  constructor
  · intro h1 g2
    unfold Gradient.corr_wrt_prob
    rw [hdim, if_pos h1, hs.1]
  · intro hne
    unfold Gradient.corr_wrt_prob
    rw [hdim, if_neg hne]
    refine ⟨by rw [List.length_map, hs.1], fun k hk => ?_⟩
    have hk2 : k < samples.length := by rw [hs.1]; exact hk
    rw [getD_map _ hk2 []]
    show ∑ i in Finset.range dim, ∑ j in Finset.range dim,
        ((matZip relDiff g.srom.compute_corr_mat
            g.target.compute_corr_mat).getD i []).getD j 0
          * (samples.getD k []).getD i 0 * (samples.getD k []).getD j 0 = _
    refine Finset.sum_congr rfl (fun i hi => Finset.sum_congr rfl (fun j hj => ?_))
    rw [getD_matZip hS hT (Finset.mem_range.mp hi) (Finset.mem_range.mp hj)]

/-- C5 fails as stated at point count `N = 1`: the single grid value is the
lower bound `0`, so the last value of column `0` is not the upper bound `1`. -/
theorem generate_cdf_grids_one_point_counterexample :
    ¬ ((column (generate_cdf_grids targetC5 1) 0).getD (1 - 1) 0
        = targetC5.maxs.getD 0 0) := by
  decide

/-- C5 (amended to point counts `N ≥ 2`): column `i` of the grid has exactly
`N` values, starts at `mins[i]`, ends at `maxs[i]`, and consecutive values
differ by `(maxs[i] - mins[i]) / (N - 1)`. -/
theorem generate_cdf_grids_spec (target : TargetRV) (N i : ℕ)
    (hN : 2 ≤ N) (hi : i < target.dim) :
    (column (generate_cdf_grids target N) i).length = N
    ∧ (column (generate_cdf_grids target N) i).getD 0 0 = target.mins.getD i 0
    ∧ (column (generate_cdf_grids target N) i).getD (N - 1) 0
        = target.maxs.getD i 0
    ∧ ∀ j, j + 1 < N →
        (column (generate_cdf_grids target N) i).getD (j + 1) 0
            - (column (generate_cdf_grids target N) i).getD j 0
          = (target.maxs.getD i 0 - target.mins.getD i 0) / ((N : ℚ) - 1) := by
  set a := target.mins.getD i 0 with ha
  set b := target.maxs.getD i 0 with hb
  have hglen : (generate_cdf_grids target N).length = N := by
    simp [generate_cdf_grids]
  have hcol : ∀ j, j < N →
      (column (generate_cdf_grids target N) i).getD j 0
        = a + (b - a) * j / ((N : ℚ) - 1) := by
    intro j hj
    rw [column_getD (by rw [hglen]; exact hj)]
    unfold generate_cdf_grids
    rw [getD_map_range _ hj, getD_map_range _ hi, linspace,
      if_neg (by omega), getD_map_range _ hj]
  have hNne : ((N : ℚ) - 1) ≠ 0 := by
    have : (2 : ℚ) ≤ (N : ℚ) := by exact_mod_cast hN
    intro hcontra
    have : (N : ℚ) = 1 := by linarith
    linarith
  refine ⟨by rw [column_length, hglen], ?_, ?_, ?_⟩
  · rw [hcol 0 (by omega)]
    simp
  · rw [hcol (N - 1) (by omega)]
    have hcast : ((N - 1 : ℕ) : ℚ) = (N : ℚ) - 1 := by
      have : 1 ≤ N := by omega
      push_cast [this]
      ring
    rw [hcast, mul_div_assoc, div_self hNne]
    ring
  · intro j hj
    rw [hcol (j + 1) (by omega), hcol j (by omega)]
    push_cast
    field_simp
    ring

/-- C2: for a `size × dim` sample matrix and `gridPts × dim` CDF matrices on
the prebuilt grid, entry `k` of `CDF_wrt_prob` is the sum over dimensions `i`
of the sum of `diff[gp, i]` over exactly those grid points `gp` whose value in
dimension `i` is `≥` the coordinate `i` of sample `k`, where
`diff = (srom_cdf - target_cdf) / target_cdf²` elementwise. -/
theorem CDF_wrt_prob_spec (g : Gradient) (samples : Mat) (probs : List ℚ)
    (size dim gridPts : ℕ) (hs : IsMat samples size dim) (hpos : 0 < size)
    (hgrid : IsMat g.xGrid gridPts dim)
    (hS : IsMat (g.srom.compute_CDF g.xGrid) gridPts dim)
    (hT : IsMat (g.target.compute_CDF g.xGrid) gridPts dim) :
    (g.CDF_wrt_prob samples probs).length = size
    ∧ ∀ k, k < size → (g.CDF_wrt_prob samples probs).getD k 0 =
        ∑ i in Finset.range dim, ∑ gp in Finset.range gridPts,
          if (samples.getD k []).getD i 0 ≤ (g.xGrid.getD gp []).getD i 0 then
            relDiff (((g.srom.compute_CDF g.xGrid).getD gp []).getD i 0)
              (((g.target.compute_CDF g.xGrid).getD gp []).getD i 0)
          else 0 := by
  have hdim : (samples.headD []).length = dim := hs.headD_len hpos
  have hdiff : IsMat (matZip relDiff (g.srom.compute_CDF g.xGrid)
      (g.target.compute_CDF g.xGrid)) gridPts dim := matZip_isMat hS hT
  unfold Gradient.CDF_wrt_prob
  rw [hdim]
  refine ⟨by rw [List.length_map, hs.1], fun k hk => ?_⟩
  have hk2 : k < samples.length := by rw [hs.1]; exact hk
  rw [getD_map _ hk2 []]
  show ∑ i in Finset.range dim,
      maskedColumnSum (column g.xGrid i)
        (column (matZip relDiff (g.srom.compute_CDF g.xGrid)
          (g.target.compute_CDF g.xGrid)) i)
        ((samples.getD k []).getD i 0) = _
  refine Finset.sum_congr rfl (fun i hi => ?_)
  have hi2 : i < dim := Finset.mem_range.mp hi
  rw [maskedColumnSum_eq _ _ _
    (by rw [column_length, column_length, hgrid.1, hdiff.1])]
  rw [column_length, hgrid.1]
  refine Finset.sum_congr rfl (fun gp hgp => ?_)
  have hgp2 : gp < gridPts := Finset.mem_range.mp hgp
  rw [column_getD (by rw [hgrid.1]; exact hgp2),
    column_getD (by rw [hdiff.1]; exact hgp2),
    getD_matZip hS hT hgp2 hi2]

/-- C6: construction fails exactly when a supplied `obj_weights` does not
have length 3 or the error string is not case-insensitively one of
mean/max/sse; the `"Mean"`, `"MEAN"`, `"mean"` spellings construct identical
evaluators; and omitting `obj_weights` defaults the weights to `[1, 1, 1]`. -/
theorem init_validation (srom : SROMModel) (target : TargetRV)
    (ow : Option (List ℚ)) (e : String) (mm gp : ℕ) :
    ((∃ msg, Gradient.init srom target ow e mm gp = .error msg) ↔
      ((∃ w, ow = some w ∧ w.length ≠ 3)
        ∨ strUpper e ∉ ["MEAN", "MAX", "SSE"]))
    ∧ Gradient.init srom target ow "Mean" mm gp
        = Gradient.init srom target ow "MEAN" mm gp
    ∧ Gradient.init srom target ow "mean" mm gp
        = Gradient.init srom target ow "MEAN" mm gp
    ∧ (∀ w, (ow = none ∨ ow = some w ∧ w.length = 3) →
        ∃ g, Gradient.init srom target ow "mean" mm gp = .ok g)
    ∧ (∀ g, Gradient.init srom target none e mm gp = .ok g →
        g.weights = [1, 1, 1]) := by
  have hMean : strUpper "Mean" = "MEAN" := by decide
  have hmean : strUpper "mean" = "MEAN" := by decide
  have hMEAN : strUpper "MEAN" = "MEAN" := by decide
  refine ⟨?_, ?_, ?_, ?_, ?_⟩
  · cases ow with
    | some w =>
      simp only [Gradient.init]
      by_cases hw : w.length = 3
      · rw [if_neg (by simp [hw])]
        by_cases he : strUpper e ∈ ["MEAN", "MAX", "SSE"]
        · rw [if_pos he]
          simp [hw, he]
        · rw [if_neg he]
          simp [he]
      · rw [if_pos (by simp [hw])]
        simp [hw]
    | none =>
      simp only [Gradient.init]
      by_cases he : strUpper e ∈ ["MEAN", "MAX", "SSE"]
      · rw [if_pos he]
        simp [he]
      · rw [if_neg he]
        simp [he]
  · simp only [Gradient.init, hMean, hMEAN]
  · simp only [Gradient.init, hmean, hMEAN]
  · intro w hw
    rcases hw with h | ⟨h, hlen⟩
    · subst h
      simp only [Gradient.init, hmean]
      exact ⟨_, by rw [if_pos (by decide)]⟩
    · subst h
      simp only [Gradient.init, hmean]
      exact ⟨_, by rw [if_neg (by simp [hlen]), if_pos (by decide)]⟩
  · intro g hg
    simp only [Gradient.init] at hg
    split at hg
    · cases hg
      rfl
    · exact absurd hg (by simp)

theorem sum_map_range_eq_finset_sum (n : ℕ) (f : ℕ → ℚ) :
    ((List.range n).map f).sum = ∑ q in Finset.range n, f q :=
  rfl

/-- C3: the vectorized flatten/tile/reshape computation of `moment_wrt_prob`
agrees with the naive nested-loop reference: entry `k` is
`Σ_{q=1..max_moment} Σ_{i<dim} samples[k,i]^q * diff[q,i]` with
`diff = (srom_moment - target_moment) / target_moment²` over the
`max_moment × dim` moment matrices. -/
theorem moment_wrt_prob_spec (g : Gradient) (samples : Mat) (probs : List ℚ)
    (size dim : ℕ) (hs : IsMat samples size dim) (hpos : 0 < size)
    (hS : IsMat (g.srom.compute_moments g.maxMoment) g.maxMoment dim)
    (hT : IsMat (g.target.compute_moments g.maxMoment) g.maxMoment dim) :
    (g.moment_wrt_prob samples probs).length = size
    ∧ ∀ k, k < size → (g.moment_wrt_prob samples probs).getD k 0 =
        ∑ q in Finset.range g.maxMoment, ∑ i in Finset.range dim,
          ((samples.getD k []).getD i 0) ^ (q + 1)
            * relDiff (((g.srom.compute_moments g.maxMoment).getD q []).getD i 0)
                (((g.target.compute_moments g.maxMoment).getD q []).getD i 0) := by
  have hdim : (samples.headD []).length = dim := hs.headD_len hpos
  have hdiff : IsMat (matZip relDiff (g.srom.compute_moments g.maxMoment)
      (g.target.compute_moments g.maxMoment)) g.maxMoment dim :=
    matZip_isMat hS hT
  have hflatlen : samples.flatten.length = size * dim := by
    rw [flatten_length_uniform hs.2, hs.1]
  set diffs := matZip relDiff (g.srom.compute_moments g.maxMoment)
    (g.target.compute_moments g.maxMoment) with hdiffs
  have hv : ∀ q ∈ List.range g.maxMoment,
      ((reshape samples.length (samples.headD []).length
        (List.zipWith (· * ·)
          (samples.flatten.map (fun x => x ^ (q + 1)))
          (tile (diffs.getD q []) samples.length))).map List.sum).length
        = size := by
    intro q _
    rw [List.length_map, reshape_length, hs.1]
  obtain ⟨hlen, hentry⟩ := foldl_zipWith_add (List.range g.maxMoment)
    (fun q => (reshape samples.length (samples.headD []).length
      (List.zipWith (· * ·)
        (samples.flatten.map (fun x => x ^ (q + 1)))
        (tile (diffs.getD q []) samples.length))).map List.sum)
    (List.replicate samples.length 0) size (by rw [List.length_replicate, hs.1])
    hv
  refine ⟨hlen, fun k hk => ?_⟩
  have hk2 : k < samples.length := by rw [hs.1]; exact hk
  have h3 := hentry k hk
  refine Eq.trans h3 ?_
  have hrep : (List.replicate samples.length (0 : ℚ)).getD k 0 = 0 := by
    rw [List.getD_eq_getElem?_getD, List.getElem?_replicate_of_lt hk2]
    rfl
  rw [hrep, zero_add, sum_map_range_eq_finset_sum]
  refine Finset.sum_congr rfl (fun q hq => ?_)
  have hqm : q < g.maxMoment := Finset.mem_range.mp hq
  have hrowlen : (diffs.getD q []).length = dim := hdiff.row_len hqm
  have hzl : (List.zipWith (· * ·)
      (samples.flatten.map (fun x => x ^ (q + 1)))
      (tile (diffs.getD q []) samples.length)).length = size * dim := by
    rw [List.length_zipWith, List.length_map, hflatlen, tile_length,
      hrowlen, hs.1, min_self]
  rw [getD_map _ (by rw [reshape_length, hs.1]; exact hk) [] 0,
    reshape_getD (by rw [hs.1]; exact hk), hdim,
    sum_take_drop _ _ _ (by
      rw [hzl]
      calc k * dim + dim = (k + 1) * dim := by ring
        _ ≤ size * dim := Nat.mul_le_mul_right dim hk)]
  refine Finset.sum_congr rfl (fun i hi => ?_)
  have hid : i < dim := Finset.mem_range.mp hi
  have hidx : k * dim + i < size * dim := by
    have h5 : (k + 1) * dim = k * dim + dim := by ring
    have h6 : (k + 1) * dim ≤ size * dim := Nat.mul_le_mul_right dim hk
    omega
  rw [getD_zipWith (by rw [List.length_map, hflatlen]; exact hidx)
      (by rw [tile_length, hrowlen, hs.1]; exact hidx),
    getD_map _ (by rw [hflatlen]; exact hidx) 0 0]
  have htile : (tile (diffs.getD q []) samples.length).getD (k * dim + i) 0
      = (diffs.getD q []).getD i 0 := by
    have h4 := tile_getD (v := diffs.getD q []) (r := samples.length)
      (k := k) (i := i) hk2 (by rw [hrowlen]; exact hid)
    rw [hrowlen] at h4
    exact h4
  rw [htile, flatten_getD_uniform hs.2 hk2 hid, hdiffs,
    getD_matZip hS hT hqm hid]

theorem CDF_wrt_prob_congr (g1 g2 : Gradient) (samples : Mat) (probs : List ℚ)
    (hg : g2.xGrid = g1.xGrid)
    (h1 : g2.srom.compute_CDF g2.xGrid = g1.srom.compute_CDF g1.xGrid)
    (h2 : g2.target.compute_CDF g2.xGrid = g1.target.compute_CDF g1.xGrid) :
    g2.CDF_wrt_prob samples probs = g1.CDF_wrt_prob samples probs := by
  simp only [Gradient.CDF_wrt_prob]
  rw [h1, h2, hg]

theorem moment_wrt_prob_congr (g1 g2 : Gradient) (samples : Mat) (probs : List ℚ)
    (hm : g2.maxMoment = g1.maxMoment)
    (h1 : g2.srom.compute_moments g2.maxMoment
      = g1.srom.compute_moments g1.maxMoment)
    (h2 : g2.target.compute_moments g2.maxMoment
      = g1.target.compute_moments g1.maxMoment) :
    g2.moment_wrt_prob samples probs = g1.moment_wrt_prob samples probs := by
  simp only [Gradient.moment_wrt_prob]
  rw [h1, h2, hm]

theorem corr_wrt_prob_congr (g1 g2 : Gradient) (samples : Mat) (probs : List ℚ)
    (h1 : g2.srom.compute_corr_mat = g1.srom.compute_corr_mat)
    (h2 : g2.target.compute_corr_mat = g1.target.compute_corr_mat) :
    g2.corr_wrt_prob samples probs = g1.corr_wrt_prob samples probs := by
  simp only [Gradient.corr_wrt_prob]
  rw [h1, h2]

/-- C7: a term whose configured weight is zero is never computed — a zero
vector is substituted — so the total gradient is unaffected by arbitrary
changes to the collaborator statistics that feed only that term (e.g., the
SROM/target correlation matrices when the correlation weight is zero), even
when those statistics take arbitrary values. -/
theorem weight_zero_short_circuit (g g2 : Gradient) (samples : Mat)
    (probs : List ℚ)
    (hW : g2.weights = g.weights) (hsize : g2.srom.size = g.srom.size)
    (hgrid : g2.xGrid = g.xGrid) (hmm : g2.maxMoment = g.maxMoment)
    (hcdf : 0 < g.weights.getD 0 0 →
      g2.srom.compute_CDF g2.xGrid = g.srom.compute_CDF g.xGrid
      ∧ g2.target.compute_CDF g2.xGrid = g.target.compute_CDF g.xGrid)
    (hmom : 0 < g.weights.getD 1 0 →
      g2.srom.compute_moments g2.maxMoment = g.srom.compute_moments g.maxMoment
      ∧ g2.target.compute_moments g2.maxMoment
          = g.target.compute_moments g.maxMoment)
    (hcorr : 0 < g.weights.getD 2 0 →
      g2.srom.compute_corr_mat = g.srom.compute_corr_mat
      ∧ g2.target.compute_corr_mat = g.target.compute_corr_mat) :
    g2.gradient_wrt_probs samples probs = g.gradient_wrt_probs samples probs := by
  have e0 : (if 0 < g.weights.getD 0 0 then g2.CDF_wrt_prob samples probs
      else List.replicate g.srom.size 0)
      = (if 0 < g.weights.getD 0 0 then g.CDF_wrt_prob samples probs
      else List.replicate g.srom.size 0) := by
    by_cases h : 0 < g.weights.getD 0 0
    · rw [if_pos h, if_pos h,
        CDF_wrt_prob_congr g g2 samples probs hgrid (hcdf h).1 (hcdf h).2]
    · rw [if_neg h, if_neg h]
  have e1 : (if 0 < g.weights.getD 1 0 then g2.moment_wrt_prob samples probs
      else List.replicate g.srom.size 0)
      = (if 0 < g.weights.getD 1 0 then g.moment_wrt_prob samples probs
      else List.replicate g.srom.size 0) := by
    by_cases h : 0 < g.weights.getD 1 0
    · rw [if_pos h, if_pos h,
        moment_wrt_prob_congr g g2 samples probs hmm (hmom h).1 (hmom h).2]
    · rw [if_neg h, if_neg h]
  have e2 : (if 0 < g.weights.getD 2 0 then g2.corr_wrt_prob samples probs
      else List.replicate g.srom.size 0)
      = (if 0 < g.weights.getD 2 0 then g.corr_wrt_prob samples probs
      else List.replicate g.srom.size 0) := by
    by_cases h : 0 < g.weights.getD 2 0
    · rw [if_pos h, if_pos h,
        corr_wrt_prob_congr g g2 samples probs (hcorr h).1 (hcorr h).2]
    · rw [if_neg h, if_neg h]
  simp only [Gradient.gradient_wrt_probs]
  rw [hW, hsize, e0, e1, e2]

theorem map_zero_mul (l : List ℚ) :
    l.map (fun x => (0 : ℚ) * x) = List.replicate l.length 0 := by
  induction l with
  | nil => rfl
  | cons a t ih => simp [ih, List.replicate_succ]

theorem CDF_wrt_prob_length (g : Gradient) (samples : Mat) (probs : List ℚ) :
    (g.CDF_wrt_prob samples probs).length = samples.length := by
  simp [Gradient.CDF_wrt_prob]

theorem moment_wrt_prob_length (g : Gradient) (samples : Mat) (probs : List ℚ) :
    (g.moment_wrt_prob samples probs).length = samples.length := by
  obtain ⟨hlen, _⟩ := foldl_zipWith_add (List.range g.maxMoment)
    (fun q => (reshape samples.length (samples.headD []).length
      (List.zipWith (· * ·)
        (samples.flatten.map (fun x => x ^ (q + 1)))
        (tile ((matZip relDiff (g.srom.compute_moments g.maxMoment)
          (g.target.compute_moments g.maxMoment)).getD q [])
          samples.length))).map List.sum)
    (List.replicate samples.length 0) samples.length
    (List.length_replicate _ _)
    (fun q _ => by rw [List.length_map, reshape_length])
  exact hlen

theorem corr_wrt_prob_length (g : Gradient) (samples : Mat) (probs : List ℚ) :
    (g.corr_wrt_prob samples probs).length = samples.length := by
  simp only [Gradient.corr_wrt_prob]
  split
  · exact List.length_replicate _ _
  · exact List.length_map _ _

theorem weighted_branch_eq (w : ℚ) (A : List ℚ) (n : ℕ)
    (hw : 0 ≤ w) (hA : A.length = n) :
    (if 0 < w then A else List.replicate n 0).map (fun x => w * x)
      = A.map (fun x => w * x) := by
  rcases lt_or_eq_of_le hw with h | h
  · rw [if_pos h]
  · rw [if_neg (by rw [← h]; exact lt_irrefl 0), ← h, map_zero_mul,
      map_zero_mul, hA, List.length_replicate]

/-- C1 fails as stated for an arbitrary ("any") weight vector: with weight
vector `[-1, 0, 0]` the code substitutes a zero vector for the CDF term
(the `weight > 0` guard), so the returned gradient `[0]` differs from the
weighted sum of the three computed term vectors, `[-1]`. -/
theorem gradient_weighted_sum_counterexample :
    Gradient.gradient_wrt_probs gC1 [[0]] [1] ≠ weightedTermSum gC1 [[0]] [1] := by
  have h1 : Gradient.gradient_wrt_probs gC1 [[0]] [1] = [0] := by
    norm_num [Gradient.gradient_wrt_probs, Gradient.CDF_wrt_prob,
      Gradient.moment_wrt_prob, Gradient.corr_wrt_prob, gC1, sromC1, targetC1,
      SROMModel.compute_CDF, SROMModel.compute_moments,
      SROMModel.compute_corr_mat, TargetRV.compute_CDF,
      TargetRV.compute_moments, TargetRV.compute_corr_mat,
      generate_cdf_grids, linspace, maskedColumnSum, column, matZip, relDiff,
      tile, reshape, List.range_succ]
  have h2 : weightedTermSum gC1 [[0]] [1] = [-1] := by
    norm_num [weightedTermSum, Gradient.CDF_wrt_prob,
      Gradient.moment_wrt_prob, Gradient.corr_wrt_prob, gC1, sromC1, targetC1,
      SROMModel.compute_CDF, SROMModel.compute_moments,
      SROMModel.compute_corr_mat, TargetRV.compute_CDF,
      TargetRV.compute_moments, TargetRV.compute_corr_mat,
      generate_cdf_grids, linspace, maskedColumnSum, column, matZip, relDiff,
      tile, reshape, List.range_succ]
  rw [h1, h2]
  intro h
  have h3 : (0 : ℚ) = -1 := by injection h
  norm_num at h3

/-- C1 (amended to non-negative weight vectors, which is what the `obj_weights`
contract of construction supplies): for a `size × dim` sample matrix and
length-`size` probability vector with `size` equal to the size
attribute of the SROM, `gradient_wrt_probs` returns a vector of length exactly `size`
equal to `w_cdf*CDF_term + w_moment*moment_term + w_corr*corr_term`. -/
theorem gradient_wrt_probs_weighted_sum (g : Gradient) (samples : Mat)
    (probs : List ℚ) (size dim : ℕ) (hs : IsMat samples size dim)
    (hp : probs.length = size) (hsize : g.srom.size = size)
    (hw0 : 0 ≤ g.weights.getD 0 0) (hw1 : 0 ≤ g.weights.getD 1 0)
    (hw2 : 0 ≤ g.weights.getD 2 0) :
    (g.gradient_wrt_probs samples probs).length = size
    ∧ g.gradient_wrt_probs samples probs = weightedTermSum g samples probs := by
  have hmain : g.gradient_wrt_probs samples probs
      = weightedTermSum g samples probs := by
    simp only [Gradient.gradient_wrt_probs, weightedTermSum]
    rw [weighted_branch_eq _ _ _ hw0
        (by rw [CDF_wrt_prob_length, hs.1, hsize]),
      weighted_branch_eq _ _ _ hw1
        (by rw [moment_wrt_prob_length, hs.1, hsize]),
      weighted_branch_eq _ _ _ hw2
        (by rw [corr_wrt_prob_length, hs.1, hsize])]
  refine ⟨?_, hmain⟩
  rw [hmain]
  unfold weightedTermSum
  rw [List.length_zipWith, List.length_zipWith, List.length_map,
    List.length_map, List.length_map, CDF_wrt_prob_length,
    moment_wrt_prob_length, corr_wrt_prob_length, hs.1, min_self, min_self]

theorem gradient_wrt_probs_weighted_sum_witness :
    (Gradient.gradient_wrt_probs gW [[0]] [1]).length = 1
    ∧ Gradient.gradient_wrt_probs gW [[0]] [1] = weightedTermSum gW [[0]] [1] :=
  gradient_wrt_probs_weighted_sum gW [[0]] [1] 1 1 (by decide) (by decide)
    rfl (by decide) (by decide) (by decide)

theorem CDF_wrt_prob_spec_witness :
    (gradEx.CDF_wrt_prob [[1/4], [3/4]] [1/2, 1/2]).length = 2
    ∧ (gradEx.CDF_wrt_prob [[1/4], [3/4]] [1/2, 1/2]).getD 0 0 = 40/9 := by
  have h := CDF_wrt_prob_spec gradEx [[1/4], [3/4]] [1/2, 1/2] 2 1 5
    (by decide) (by decide) (by decide) (by decide) (by decide)
  refine ⟨h.1, ?_⟩
  rw [h.2 0 (by decide)]
  norm_num [gradEx, sromEx, targetEx, SROMModel.compute_CDF,
    TargetRV.compute_CDF, generate_cdf_grids, linspace, relDiff,
    Finset.sum_range_succ, List.range_succ]

theorem moment_wrt_prob_spec_witness :
    (gradEx.moment_wrt_prob [[1/4], [3/4]] [1/2, 1/2]).length = 2
    ∧ (gradEx.moment_wrt_prob [[1/4], [3/4]] [1/2, 1/2]).getD 1 0 = -27/256 := by
  have h := moment_wrt_prob_spec gradEx [[1/4], [3/4]] [1/2, 1/2] 2 1
    (by decide) (by decide) (by decide) (by decide)
  refine ⟨h.1, ?_⟩
  rw [h.2 1 (by decide)]
  norm_num [gradEx, sromEx, targetEx, SROMModel.compute_moments,
    TargetRV.compute_moments, relDiff, Finset.sum_range_succ, List.range_succ]

theorem corr_wrt_prob_spec_witness :
    gradEx.corr_wrt_prob [[1/4], [3/4]] [1/2, 1/2] = List.replicate 2 0
    ∧ (gradC4.corr_wrt_prob [[1, 2, 3], [4, 5, 6]] []).getD 0 0 = 228 := by
  constructor
  · exact (corr_wrt_prob_spec gradEx [[1/4], [3/4]] [1/2, 1/2] 2 1
      (by decide) (by decide) (by decide) (by decide)).1 rfl gradEx
  · have h := corr_wrt_prob_spec gradC4 [[1, 2, 3], [4, 5, 6]] [] 2 3
      (by decide) (by decide) (by decide) (by decide)
    rw [(h.2 (by decide)).2 0 (by decide)]
    norm_num [gradC4, sromC4, targetC4, SROMModel.compute_corr_mat,
      TargetRV.compute_corr_mat, relDiff, Finset.sum_range_succ]

theorem generate_cdf_grids_spec_witness :
    (column (generate_cdf_grids targetEx 5) 0).length = 5
    ∧ (column (generate_cdf_grids targetEx 5) 0).getD 0 0 = 0
    ∧ (column (generate_cdf_grids targetEx 5) 0).getD 4 0 = 1
    ∧ (column (generate_cdf_grids targetEx 5) 0).getD 1 0
        - (column (generate_cdf_grids targetEx 5) 0).getD 0 0 = 1/4 := by
  obtain ⟨h1, h2, h3, h4⟩ := generate_cdf_grids_spec targetEx 5 0
    (by decide) (by decide)
  have h3b : (column (generate_cdf_grids targetEx 5) 0).getD 4 0
      = targetEx.maxs.getD 0 0 := h3
  refine ⟨h1, ?_, ?_, ?_⟩
  · rw [h2]; decide
  · rw [h3b]; decide
  · rw [h4 0 (by decide)]
    norm_num [targetEx]

theorem init_validation_witness :
    (∃ msg, Gradient.init sromEx targetEx (some [1, 1]) "mean" 5 3
      = .error msg)
    ∧ (∃ msg, Gradient.init sromEx targetEx none "weird" 5 3 = .error msg)
    ∧ (∃ g, Gradient.init sromEx targetEx none "mean" 5 3 = .ok g) := by
  refine ⟨?_, ?_, ?_⟩
  · exact (init_validation sromEx targetEx (some [1, 1]) "mean" 5 3).1.mpr
      (Or.inl ⟨[1, 1], rfl, by decide⟩)
  · exact (init_validation sromEx targetEx none "weird" 5 3).1.mpr
      (Or.inr (by decide))
  · exact (init_validation sromEx targetEx none "mean" 5 3).2.2.2.1 []
      (Or.inl rfl)

theorem weight_zero_short_circuit_witness :
    Gradient.gradient_wrt_probs gradC7b [[1/4], [3/4]] [1/2, 1/2]
      = Gradient.gradient_wrt_probs gradC7 [[1/4], [3/4]] [1/2, 1/2] :=
  weight_zero_short_circuit gradC7 gradC7b [[1/4], [3/4]] [1/2, 1/2]
    rfl rfl rfl rfl (fun _ => ⟨rfl, rfl⟩) (fun _ => ⟨rfl, rfl⟩)
    (fun h => absurd h (by decide))

theorem metric_has_no_influence_witness :
    Gradient.gradient_wrt_probs gA [[1/4], [3/4]] [1/2, 1/2]
      = Gradient.gradient_wrt_probs gB [[1/4], [3/4]] [1/2, 1/2] :=
  metric_has_no_influence sromEx targetEx none "mean" "max" 2 5 gA gB
    rfl rfl [[1/4], [3/4]] [1/2, 1/2]
